import Mathlib

/-!
Verification of the `EnvelopeDetector` core from
`audio/dsp/envelope_detector.cc` (namespace `audio_dsp`).

The detector orchestrates three external stateful stages (a prefilter
biquad cascade, a lowpass smoother, and one fractional downsampler per
channel) around an elementwise square / clamped square root.  The
external primitives (biquad cascade filter, filter coefficient design,
resampling kernel, fractional downsampler) are out of scope for the
core: they are modelled as an abstract bundle of state types and pure
state-passing functions, `Externals` below.  Sample data is idealised
as real numbers; the configuration scalars (sample rates, cutoff) are
idealised as rationals so that the initialisation checks are decidable.

An audio block (Eigen `ArrayXXf`, channels x samples) is modelled as a
list of rows, one row per channel.
-/

namespace AudioDsp

abbrev Row : Type := List ℝ

abbrev Block : Type := List (List ℝ)

/-- Modelled from the spec: the external collaborators of the core
(BiquadCascadeFilter, BiquadFilterDesigner, DefaultResamplingKernel,
FractionalDownsampler) are not part of the core source.  They are
modelled as abstract state types `P` (prefilter), `S` (smoother),
`D` (one downsampler) together with pure construction, reset and
block-processing functions; `C` is the opaque prefilter coefficient
bundle, `SC` the designed smoother coefficients, `K` the resampling
kernel.  A stateful `ProcessBlock` of a filter becomes a function from
state and input block to new state and output block. -/
structure Externals (C SC K P S D : Type) where
  prefilterInit : Nat → C → P
  prefilterReset : P → P
  prefilterProcess : P → Block → P × Block
  lowpassDesign : ℚ → ℚ → ℚ → SC
  smootherInit : Nat → SC → S
  smootherReset : S → S
  smootherProcess : S → Block → S × Block
  defaultResamplingKernel : ℚ → ℚ → K
  downsamplerMk : K → Nat → D
  downsamplerReset : D → D
  downsamplerProcess : D → Row → D × Row

/-- State of `audio_dsp::EnvelopeDetector`: the configuration scalars,
the retained last output column, and the states of the three stages
(`prefilter_`, `envelope_smoother_` and the per-channel
`downsamplers_`).  The scratch buffer `workspace_` is fully
overwritten by the prefilter on every call and carries no state across
calls, so it is not part of the model. -/
structure EnvelopeDetector (P S D : Type) where
  num_channels_ : Nat
  sample_rate_hz_ : ℚ
  envelope_cutoff_hz_ : ℚ
  envelope_sample_rate_hz_ : ℚ
  most_recent_output_ : Row
  prefilter_ : P
  envelope_smoother_ : S
  downsamplers_ : List D

variable {C SC K P S D : Type}

/-- Fixed damping factor of the smoother design (`kOverdamped = 0.5`). -/
def kOverdamped : ℚ := 1 / 2

/-- Kernel radius passed to every downsampler (`emplace_back(kernel, 500)`). -/
def kKernelRadius : Nat := 500

/-- Detector state established by a successful `Init`: stored
configuration, zeroed `most_recent_output_`, prefilter built from the
caller coefficients, smoother from internally designed lowpass
coefficients with damping `kOverdamped`, and one downsampler per
channel from the shared default resampling kernel with radius 500. -/
def EnvelopeDetector.initState (ext : Externals C SC K P S D) (num_channels : Nat)
    (sample_rate_hz envelope_cutoff_hz envelope_sample_rate_hz : ℚ) (coeffs : C) :
    EnvelopeDetector P S D :=
  { num_channels_ := num_channels
    sample_rate_hz_ := sample_rate_hz
    envelope_cutoff_hz_ := envelope_cutoff_hz
    envelope_sample_rate_hz_ := envelope_sample_rate_hz
    most_recent_output_ := List.replicate num_channels 0
    prefilter_ := ext.prefilterInit num_channels coeffs
    envelope_smoother_ := ext.smootherInit num_channels
      (ext.lowpassDesign sample_rate_hz envelope_cutoff_hz kOverdamped)
    downsamplers_ := List.replicate num_channels
      (ext.downsamplerMk
        (ext.defaultResamplingKernel sample_rate_hz envelope_sample_rate_hz)
        kKernelRadius) }

/-- EnvelopeDetector::Init.  The four `CHECK` macros abort the process
on violation; the abort is modelled as `none`.  On success the state
is `initState`. -/
def EnvelopeDetector.Init (ext : Externals C SC K P S D) (num_channels : Nat)
    (sample_rate_hz envelope_cutoff_hz envelope_sample_rate_hz : ℚ) (coeffs : C) :
    Option (EnvelopeDetector P S D) :=
  if envelope_sample_rate_hz ≤ sample_rate_hz ∧
      envelope_cutoff_hz < envelope_sample_rate_hz / 2 ∧
      0 < envelope_cutoff_hz ∧
      0 < num_channels then
    some (EnvelopeDetector.initState ext num_channels sample_rate_hz
      envelope_cutoff_hz envelope_sample_rate_hz coeffs)
  else none

/-- EnvelopeDetector::Reset: resets the prefilter, the smoother and
every downsampler.  No other field is touched. -/
def EnvelopeDetector.Reset (ext : Externals C SC K P S D)
    (d : EnvelopeDetector P S D) : EnvelopeDetector P S D :=
  { d with
    prefilter_ := ext.prefilterReset d.prefilter_
    envelope_smoother_ := ext.smootherReset d.envelope_smoother_
    downsamplers_ := d.downsamplers_.map ext.downsamplerReset }

/-- Elementwise `workspace_ = workspace_.abs2()` (squared magnitude;
for real samples this is squaring). -/
def squareBlock (b : Block) : Block :=
  b.map (fun row => row.map (fun x => x * x))

/-- Elementwise `out.array().max(0).sqrt()`. -/
noncomputable def sqrtClampRow (r : Row) : Row :=
  r.map (fun x => Real.sqrt (max x 0))

/-- Writing a row of length `r.length` into an Eigen row of width `w`:
the row storage has exactly width `w` (fixed by the channel-0 resize).
When the lengths agree this is the identity; a mismatch is an Eigen
size assertion in the C++, modelled here by truncation or
zero-padding. -/
def fitRow (w : Nat) (r : Row) : Row :=
  r.take w ++ List.replicate (w - r.length) 0

/-- Column `j` of a block (`output->col(j)`): one scalar per row. -/
def blockCol (b : Block) (j : Nat) : Row :=
  b.map (fun row => row.getD j 0)

/-- One downsampler step of the per-channel loop of ProcessBlock:
channel `c` of the smoothed, squared, prefiltered input is fed to the
channel-`c` downsampler (`downsamplers_[channel].ProcessSamplesEigen(
workspace_.row(channel), &out)`), returning the new downsampler state
and the produced samples. -/
def dsStep [Inhabited D] (ext : Externals C SC K P S D)
    (d : EnvelopeDetector P S D) (input : Block) (c : Nat) : D × Row :=
  ext.downsamplerProcess (d.downsamplers_.getD c default)
    ((ext.smootherProcess d.envelope_smoother_
        (squareBlock (ext.prefilterProcess d.prefilter_ input).2)).2.getD c [])

/-- Samples produced by the channel-`c` downsampler during a
ProcessBlock call. -/
def chanOut [Inhabited D] (ext : Externals C SC K P S D)
    (d : EnvelopeDetector P S D) (input : Block) (c : Nat) : Row :=
  (dsStep ext d input c).2

/-- Output block built by the per-channel loop: `output` is resized at
channel 0 to width `out.size()` of channel 0, then every row is
assigned the clamped square root of its channel downsampler output. -/
noncomputable def outBlock [Inhabited D] (ext : Externals C SC K P S D)
    (d : EnvelopeDetector P S D) (input : Block) : Block :=
  (List.range d.num_channels_).map (fun c =>
    fitRow (chanOut ext d input 0).length (sqrtClampRow (chanOut ext d input c)))

/-- EnvelopeDetector::ProcessBlock.  The C++ signature is
`bool ProcessBlock(const ArrayXXf& input, ArrayXXf* output)`; the
caller-owned `*output` is modelled as the `output` argument, and the
result is the returned bool, the updated detector and the final value
of `*output`.  Uninitialised detectors (`num_channels_ == 0`) fail
fast leaving everything untouched; otherwise the input is prefiltered,
squared, smoothed, downsampled per channel, de-rectified with
`sqrt(max(0, x))`, and the last output column is retained in
`most_recent_output_` whenever at least one column was produced. -/
noncomputable def EnvelopeDetector.ProcessBlock [Inhabited D]
    (ext : Externals C SC K P S D) (d : EnvelopeDetector P S D)
    (input output : Block) : Bool × EnvelopeDetector P S D × Block :=
  if d.num_channels_ = 0 then
    (false, d, output)
  else
    (true,
      { d with
        prefilter_ := (ext.prefilterProcess d.prefilter_ input).1
        envelope_smoother_ := (ext.smootherProcess d.envelope_smoother_
          (squareBlock (ext.prefilterProcess d.prefilter_ input).2)).1
        downsamplers_ := (List.range d.num_channels_).map
          (fun c => (dsStep ext d input c).1)
        most_recent_output_ :=
          if 0 < (chanOut ext d input 0).length then
            blockCol (outBlock ext d input) ((chanOut ext d input 0).length - 1)
          else
            d.most_recent_output_ }
      , outBlock ext d input)

/-- One caller action on an initialized detector. -/
inductive DetOp where
  | reset : DetOp
  | process : Block → Block → DetOp

/-- Run a sequence of caller actions, threading the detector state.
A `process` action carries the input block and the previous contents
of the caller-owned output array. -/
noncomputable def runOps [Inhabited D] (ext : Externals C SC K P S D) :
    EnvelopeDetector P S D → List DetOp → EnvelopeDetector P S D
  | d, [] => d
  | d, DetOp.reset :: rest => runOps ext (d.Reset ext) rest
  | d, DetOp.process input output :: rest =>
      runOps ext (d.ProcessBlock ext input output).2.1 rest

/-- Configuration and shape facts maintained from Init onwards. -/
def configOk (nc : Nat) (sr fc er : ℚ) (d : EnvelopeDetector P S D) : Prop :=
  d.num_channels_ = nc ∧ d.sample_rate_hz_ = sr ∧ d.envelope_cutoff_hz_ = fc ∧
    d.envelope_sample_rate_hz_ = er ∧ d.most_recent_output_.length = nc

lemma fitRow_length (w : Nat) (r : Row) : (fitRow w r).length = w := by
  simp only [fitRow, List.length_append, List.length_take, List.length_replicate]
  omega

lemma fitRow_eq_of_length (w : Nat) (r : Row) (h : r.length = w) : fitRow w r = r := by
  subst h
  simp [fitRow]

lemma sqrtClampRow_length (r : Row) : (sqrtClampRow r).length = r.length := by
  simp [sqrtClampRow]

lemma fitRow_sqrtClamp_nonneg (w : Nat) (r : Row) :
    ∀ x ∈ fitRow w (sqrtClampRow r), 0 ≤ x := by
  intro x hx
  rcases List.mem_append.mp hx with h | h
  · rcases List.mem_map.mp (List.mem_of_mem_take h) with ⟨y, -, rfl⟩
    exact Real.sqrt_nonneg _
  · rcases List.eq_of_mem_replicate h with rfl
    exact le_refl 0

lemma getD_range_map {α : Type} (f : Nat → α) (n c : Nat) (e : α) (h : c < n) :
    (((List.range n).map f).getD c e) = f c := by
  rw [List.getD_eq_getElem?_getD]
  simp [List.getElem?_range, h]

lemma map_eq_replicate_of_const {α β : Type} (f : α → β) (b : β)
    (h : ∀ x, f x = b) (l : List α) : l.map f = List.replicate l.length b := by
  induction l with
  | nil => rfl
  | cons a t ih => simp [h, ih, List.replicate_succ]

lemma EnvelopeDetector.ext_fields {a b : EnvelopeDetector P S D}
    (h1 : a.num_channels_ = b.num_channels_)
    (h2 : a.sample_rate_hz_ = b.sample_rate_hz_)
    (h3 : a.envelope_cutoff_hz_ = b.envelope_cutoff_hz_)
    (h4 : a.envelope_sample_rate_hz_ = b.envelope_sample_rate_hz_)
    (h5 : a.most_recent_output_ = b.most_recent_output_)
    (h6 : a.prefilter_ = b.prefilter_)
    (h7 : a.envelope_smoother_ = b.envelope_smoother_)
    (h8 : a.downsamplers_ = b.downsamplers_) : a = b := by
  cases a
  cases b
  simp_all

lemma init_eq_some_iff (ext : Externals C SC K P S D) (nc : Nat)
    (sr fc er : ℚ) (coeffs : C) (d0 : EnvelopeDetector P S D) :
    EnvelopeDetector.Init ext nc sr fc er coeffs = some d0 ↔
      (er ≤ sr ∧ fc < er / 2 ∧ 0 < fc ∧ 0 < nc) ∧
        d0 = EnvelopeDetector.initState ext nc sr fc er coeffs := by
  unfold EnvelopeDetector.Init
  split <;> rename_i hc
  · simp [hc, eq_comm]
  · simp [hc]

lemma processBlock_zero [Inhabited D] (ext : Externals C SC K P S D)
    (d : EnvelopeDetector P S D) (input output : Block)
    (h : d.num_channels_ = 0) :
    d.ProcessBlock ext input output = (false, d, output) := by
  rw [EnvelopeDetector.ProcessBlock, if_pos h]

lemma processBlock_pos [Inhabited D] (ext : Externals C SC K P S D)
    (d : EnvelopeDetector P S D) (input output : Block)
    (h : d.num_channels_ ≠ 0) :
    d.ProcessBlock ext input output =
      (true,
        { d with
          prefilter_ := (ext.prefilterProcess d.prefilter_ input).1
          envelope_smoother_ := (ext.smootherProcess d.envelope_smoother_
            (squareBlock (ext.prefilterProcess d.prefilter_ input).2)).1
          downsamplers_ := (List.range d.num_channels_).map
            (fun c => (dsStep ext d input c).1)
          most_recent_output_ :=
            if 0 < (chanOut ext d input 0).length then
              blockCol (outBlock ext d input) ((chanOut ext d input 0).length - 1)
            else
              d.most_recent_output_ }
        , outBlock ext d input) := by
  rw [EnvelopeDetector.ProcessBlock, if_neg h]

lemma configOk_reset (ext : Externals C SC K P S D) (nc : Nat) (sr fc er : ℚ)
    (d : EnvelopeDetector P S D) (h : configOk nc sr fc er d) :
    configOk nc sr fc er (d.Reset ext) := h

lemma configOk_process [Inhabited D] (ext : Externals C SC K P S D)
    (nc : Nat) (sr fc er : ℚ) (d : EnvelopeDetector P S D)
    (input output : Block) (hnc : 0 < nc) (h : configOk nc sr fc er d) :
    configOk nc sr fc er (d.ProcessBlock ext input output).2.1 := by
  obtain ⟨h1, h2, h3, h4, h5⟩ := h
  have hne : d.num_channels_ ≠ 0 := by omega
  rw [processBlock_pos ext d input output hne]
  refine ⟨h1, h2, h3, h4, ?_⟩
  dsimp only
  split
  · simp [blockCol, outBlock, h1]
  · exact h5

lemma configOk_runOps [Inhabited D] (ext : Externals C SC K P S D)
    (nc : Nat) (sr fc er : ℚ) (hnc : 0 < nc) (ops : List DetOp) :
    ∀ d : EnvelopeDetector P S D, configOk nc sr fc er d →
      configOk nc sr fc er (runOps ext d ops) := by
  induction ops with
  | nil => intro d h; exact h
  | cons op rest ih =>
      intro d h
      cases op with
      | reset => exact ih _ (configOk_reset ext nc sr fc er d h)
      | process input output =>
          exact ih _ (configOk_process ext nc sr fc er d input output hnc h)

/-- Example instantiation of the external stages on trivial states:
every stage is the identity on its data and carries no history. -/
def idExt : Externals Unit Unit Unit Unit Unit Unit where
  prefilterInit := fun _ _ => ()
  prefilterReset := fun p => p
  prefilterProcess := fun p b => (p, b)
  lowpassDesign := fun _ _ _ => ()
  smootherInit := fun _ _ => ()
  smootherReset := fun s => s
  smootherProcess := fun s b => (s, b)
  defaultResamplingKernel := fun _ _ => ()
  downsamplerMk := fun _ _ => ()
  downsamplerReset := fun x => x
  downsamplerProcess := fun x r => (x, r)

/-- Post-Init single-channel detector used in the concrete runs. -/
def d0Ex : EnvelopeDetector Unit Unit Unit :=
  EnvelopeDetector.initState idExt 1 2 (1 / 4) 1 ()

/-- Default-constructed detector: never initialized. -/
def dUninitEx : EnvelopeDetector Unit Unit Unit :=
  { num_channels_ := 0
    sample_rate_hz_ := 0
    envelope_cutoff_hz_ := 0
    envelope_sample_rate_hz_ := 0
    most_recent_output_ := []
    prefilter_ := ()
    envelope_smoother_ := ()
    downsamplers_ := [] }

/-- Detector state after processing the one-sample block [[1]]. -/
noncomputable def d1Ex : EnvelopeDetector Unit Unit Unit :=
  (d0Ex.ProcessBlock idExt [[1]] []).2.1

/-- C1: for an initialized detector, whenever a ProcessBlock call
produces at least one output sample, `most_recent_output_` is set to
the last column of the produced output (one scalar per channel); when
the call produces zero output samples, `most_recent_output_` keeps
exactly the value it had after the previous call. -/
theorem claim_C1_most_recent_output_update [Inhabited D]
    (ext : Externals C SC K P S D) (d : EnvelopeDetector P S D)
    (input output : Block) (h : d.num_channels_ ≠ 0) :
    (0 < (chanOut ext d input 0).length →
      ((d.ProcessBlock ext input output).2.1).most_recent_output_ =
        blockCol ((d.ProcessBlock ext input output).2.2)
          ((chanOut ext d input 0).length - 1)) ∧
    ((chanOut ext d input 0).length = 0 →
      ((d.ProcessBlock ext input output).2.1).most_recent_output_ =
        d.most_recent_output_) := by
  rw [processBlock_pos ext d input output h]
  constructor
  · intro hw
    simp [hw]
  · intro hw
    simp [hw]

theorem claim_C1_witness :
    ((d0Ex.ProcessBlock idExt [[1]] []).2.1).most_recent_output_ =
      blockCol ((d0Ex.ProcessBlock idExt [[1]] []).2.2)
        ((chanOut idExt d0Ex [[1]] 0).length - 1) :=
  (claim_C1_most_recent_output_update idExt d0Ex [[1]] [] (by decide)).1 (by decide)

/-- C2: ProcessBlock reports failure exactly when the detector was
never initialized (`num_channels_ = 0`); on that failure it returns
at once with the detector state and the caller output untouched; on
an initialized detector it always reports success. -/
theorem claim_C2_failure_iff_uninitialized [Inhabited D]
    (ext : Externals C SC K P S D) (d : EnvelopeDetector P S D)
    (input output : Block) :
    ((d.ProcessBlock ext input output).1 = false ↔ d.num_channels_ = 0) ∧
    (d.num_channels_ = 0 → d.ProcessBlock ext input output = (false, d, output)) := by
  by_cases h : d.num_channels_ = 0
  · rw [processBlock_zero ext d input output h]
    simp [h]
  · rw [processBlock_pos ext d input output h]
    simp [h]

theorem claim_C2_witness :
    dUninitEx.ProcessBlock idExt [[1]] [] = (false, dUninitEx, []) :=
  (claim_C2_failure_iff_uninitialized idExt dUninitEx [[1]] []).2 rfl

/-- C4: for an initialized detector every produced output row is the
elementwise clamped square root `sqrt(max(x, 0))` of the downsampled
mean-square samples of its channel (whenever that channel produced the
column count fixed by channel 0), and every output sample is
non-negative: the square root is never applied to a negative
argument. -/
theorem claim_C4_sqrt_clamp_nonneg [Inhabited D]
    (ext : Externals C SC K P S D) (d : EnvelopeDetector P S D)
    (input output : Block) (h : d.num_channels_ ≠ 0) :
    (∀ c, c < d.num_channels_ →
      (chanOut ext d input c).length = (chanOut ext d input 0).length →
      ((d.ProcessBlock ext input output).2.2).getD c [] =
        sqrtClampRow (chanOut ext d input c)) ∧
    (∀ row ∈ (d.ProcessBlock ext input output).2.2, ∀ x ∈ row, 0 ≤ x) := by
  rw [processBlock_pos ext d input output h]
  constructor
  · intro c hc hlen
    show (outBlock ext d input).getD c [] = _
    rw [outBlock, getD_range_map _ _ _ _ hc]
    exact fitRow_eq_of_length _ _ (by rw [sqrtClampRow_length, hlen])
  · intro row hrow x hx
    have hrow2 : row ∈ outBlock ext d input := hrow
    rcases List.mem_map.mp hrow2 with ⟨c, -, rfl⟩
    exact fitRow_sqrtClamp_nonneg _ _ x hx

theorem claim_C4_witness :
    ((d0Ex.ProcessBlock idExt [[1]] []).2.2).getD 0 [] =
      sqrtClampRow (chanOut idExt d0Ex [[1]] 0) :=
  (claim_C4_sqrt_clamp_nonneg idExt d0Ex [[1]] [] (by decide)).1 0 (by decide) rfl

/-- C6: for an initialized detector the produced output has one row
per channel and every row has exactly the length of the channel-0
downsampler output for this call: the width is allocated from channel
0 alone, and the other rows are written against that width whether or
not their own downsampler produced the same number of samples. -/
theorem claim_C6_width_from_channel_zero [Inhabited D]
    (ext : Externals C SC K P S D) (d : EnvelopeDetector P S D)
    (input output : Block) (h : d.num_channels_ ≠ 0) :
    ((d.ProcessBlock ext input output).2.2).length = d.num_channels_ ∧
    (∀ row ∈ (d.ProcessBlock ext input output).2.2,
      row.length = (chanOut ext d input 0).length) := by
  rw [processBlock_pos ext d input output h]
  constructor
  · show (outBlock ext d input).length = _
    simp [outBlock]
  · intro row hrow
    have hrow2 : row ∈ outBlock ext d input := hrow
    rcases List.mem_map.mp hrow2 with ⟨c, -, rfl⟩
    exact fitRow_length _ _

theorem claim_C6_witness :
    ((d0Ex.ProcessBlock idExt [[1]] []).2.2).length = d0Ex.num_channels_ :=
  (claim_C6_width_from_channel_zero idExt d0Ex [[1]] [] (by decide)).1

/-- C5: an initialized ProcessBlock call is exactly the five-stage
pipeline, in order: (1) the stateful prefilter on the whole block,
(2) elementwise squaring of every sample, (3) the stateful lowpass
smoother on the whole block, (4) for each channel independently its
dedicated stateful fractional downsampler, (5) elementwise
`sqrt(max(x, 0))` on every downsampled sample to form the output. -/
theorem claim_C5_pipeline_stages [Inhabited D]
    (ext : Externals C SC K P S D) (d : EnvelopeDetector P S D)
    (input output : Block) (h : d.num_channels_ ≠ 0) :
    d.ProcessBlock ext input output =
      (let pre := ext.prefilterProcess d.prefilter_ input
       let squared := squareBlock pre.2
       let sm := ext.smootherProcess d.envelope_smoother_ squared
       let ds := fun c => ext.downsamplerProcess
         (d.downsamplers_.getD c default) (sm.2.getD c [])
       let w := (ds 0).2.length
       let out := (List.range d.num_channels_).map
         (fun c => fitRow w (sqrtClampRow (ds c).2))
       (true,
        { d with
          prefilter_ := pre.1
          envelope_smoother_ := sm.1
          downsamplers_ := (List.range d.num_channels_).map (fun c => (ds c).1)
          most_recent_output_ :=
            if 0 < w then blockCol out (w - 1) else d.most_recent_output_ },
        out)) := by
  rw [processBlock_pos ext d input output h]
  rfl

theorem claim_C5_witness :
    d0Ex.ProcessBlock idExt [[1]] [] =
      (let pre := idExt.prefilterProcess d0Ex.prefilter_ [[1]]
       let squared := squareBlock pre.2
       let sm := idExt.smootherProcess d0Ex.envelope_smoother_ squared
       let ds := fun c => idExt.downsamplerProcess
         (d0Ex.downsamplers_.getD c default) (sm.2.getD c [])
       let w := (ds 0).2.length
       let out := (List.range d0Ex.num_channels_).map
         (fun c => fitRow w (sqrtClampRow (ds c).2))
       (true,
        { d0Ex with
          prefilter_ := pre.1
          envelope_smoother_ := sm.1
          downsamplers_ := (List.range d0Ex.num_channels_).map (fun c => (ds c).1)
          most_recent_output_ :=
            if 0 < w then blockCol out (w - 1) else d0Ex.most_recent_output_ },
        out)) :=
  claim_C5_pipeline_stages idExt d0Ex [[1]] [] (by decide)

/-- C7: Init aborts (a fatal CHECK failure, modelled as `none`)
exactly when one of the four checked preconditions is violated:
positive channel count, positive envelope cutoff, cutoff strictly
below half the envelope sample rate, and envelope sample rate at most
the input sample rate; when all four hold, Init completes. -/
theorem claim_C7_init_preconditions (ext : Externals C SC K P S D)
    (nc : Nat) (sr fc er : ℚ) (coeffs : C) :
    EnvelopeDetector.Init ext nc sr fc er coeffs = none ↔
      ¬(0 < nc ∧ 0 < fc ∧ fc < er / 2 ∧ er ≤ sr) := by
  unfold EnvelopeDetector.Init
  split <;> rename_i hc
  · simp only [reduceCtorEq, false_iff, not_not]
    tauto
  · simp only [true_iff]
    tauto

/-- C8: Reset is idempotent.  Each external stage reset clears that
stage to its freshly built history (the contract of the external
primitives), hence is itself idempotent; under that contract applying
the detector Reset twice in succession equals applying it once. -/
theorem claim_C8_reset_idempotent (ext : Externals C SC K P S D)
    (d : EnvelopeDetector P S D)
    (hp : ∀ p, ext.prefilterReset (ext.prefilterReset p) = ext.prefilterReset p)
    (hs : ∀ s, ext.smootherReset (ext.smootherReset s) = ext.smootherReset s)
    (hd : ∀ x, ext.downsamplerReset (ext.downsamplerReset x) =
      ext.downsamplerReset x) :
    (d.Reset ext).Reset ext = d.Reset ext := by
  unfold EnvelopeDetector.Reset
  congr 1
  · exact hp _
  · exact hs _
  · rw [List.map_map]
    exact List.map_congr_left fun x _ => hd x

theorem claim_C8_witness : (d0Ex.Reset idExt).Reset idExt = d0Ex.Reset idExt :=
  claim_C8_reset_idempotent idExt d0Ex (fun _ => rfl) (fun _ => rfl) (fun _ => rfl)

/-- C9: Reset leaves `most_recent_output_` completely unchanged, as
well as the whole configuration: only the prefilter, smoother and
downsampler histories are touched, so the last reported level
survives a Reset instead of returning to the post-Init zeros. -/
theorem claim_C9_reset_preserves_most_recent_output
    (ext : Externals C SC K P S D) (d : EnvelopeDetector P S D) :
    (d.Reset ext).most_recent_output_ = d.most_recent_output_ ∧
    (d.Reset ext).num_channels_ = d.num_channels_ ∧
    (d.Reset ext).sample_rate_hz_ = d.sample_rate_hz_ ∧
    (d.Reset ext).envelope_cutoff_hz_ = d.envelope_cutoff_hz_ ∧
    (d.Reset ext).envelope_sample_rate_hz_ = d.envelope_sample_rate_hz_ ∧
    (d.Reset ext).prefilter_ = ext.prefilterReset d.prefilter_ ∧
    (d.Reset ext).envelope_smoother_ = ext.smootherReset d.envelope_smoother_ ∧
    (d.Reset ext).downsamplers_ = d.downsamplers_.map ext.downsamplerReset :=
  ⟨rfl, rfl, rfl, rfl, rfl, rfl, rfl, rfl⟩

/-- C3 counterexample: after Init (one channel, rates 2 and 1, cutoff
1/4) and a single ProcessBlock call on the block [[1]] that produced
output, Reset does not return the detector to the post-Init state:
`most_recent_output_` keeps the last level [1] instead of the
post-Init [0]. -/
theorem claim_C3_counterexample :
    EnvelopeDetector.Init idExt 1 2 (1 / 4) 1 () = some d0Ex ∧
    d1Ex.Reset idExt ≠ d0Ex := by
  constructor
  · exact (init_eq_some_iff idExt 1 2 (1 / 4) 1 () d0Ex).mpr ⟨by norm_num, rfl⟩
  · intro hEq
    have h2 : d1Ex.most_recent_output_ = [1] := by
      simp [d1Ex, EnvelopeDetector.ProcessBlock, chanOut, dsStep, outBlock, blockCol,
        fitRow, sqrtClampRow, squareBlock, idExt, d0Ex, EnvelopeDetector.initState]
      norm_num [List.range_succ, Real.sqrt_eq_one, max_eq_left]
    have h3 : (d1Ex.Reset idExt).most_recent_output_ = [1] := h2
    have h1 : (d1Ex.Reset idExt).most_recent_output_ = [0] := by
      rw [hEq]
      rfl
    exact absurd (h1.symm.trans h3) (by simp)

/-- C3 (amended): Reset clears the prefilter, smoother and per-channel
downsampler histories back to their freshly built post-Init states
(using the external contract that each stage reset restores the
freshly constructed stage) and preserves the configuration, but it
does NOT restore `most_recent_output_` to the post-Init zeros: the
detector after Reset is the post-Init state with the current
`most_recent_output_` kept. -/
theorem claim_C3_reset_restores_init_except_mro
    (ext : Externals C SC K P S D) (nc : Nat) (sr fc er : ℚ) (coeffs : C)
    (d0 d : EnvelopeDetector P S D)
    (hInit : EnvelopeDetector.Init ext nc sr fc er coeffs = some d0)
    (hp : ∀ p, ext.prefilterReset p = ext.prefilterInit nc coeffs)
    (hs : ∀ s, ext.smootherReset s =
      ext.smootherInit nc (ext.lowpassDesign sr fc kOverdamped))
    (hd : ∀ x, ext.downsamplerReset x =
      ext.downsamplerMk (ext.defaultResamplingKernel sr er) kKernelRadius)
    (hnum : d.num_channels_ = nc) (hsr : d.sample_rate_hz_ = sr)
    (hfc : d.envelope_cutoff_hz_ = fc) (her : d.envelope_sample_rate_hz_ = er)
    (hlen : d.downsamplers_.length = nc) :
    d.Reset ext = { d0 with most_recent_output_ := d.most_recent_output_ } := by
  obtain ⟨-, rfl⟩ := (init_eq_some_iff ext nc sr fc er coeffs d0).mp hInit
  apply EnvelopeDetector.ext_fields
  · exact hnum
  · exact hsr
  · exact hfc
  · exact her
  · rfl
  · exact hp _
  · exact hs _
  · show d.downsamplers_.map ext.downsamplerReset = _
    rw [map_eq_replicate_of_const _ _ hd, hlen]
    rfl

theorem claim_C3_witness :
    d1Ex.Reset idExt = { d0Ex with most_recent_output_ := d1Ex.most_recent_output_ } :=
  claim_C3_reset_restores_init_except_mro idExt 1 2 (1 / 4) 1 () d0Ex d1Ex
    ((init_eq_some_iff idExt 1 2 (1 / 4) 1 () d0Ex).mpr ⟨by norm_num, rfl⟩)
    (fun _ => rfl) (fun _ => rfl) (fun _ => rfl) rfl rfl rfl rfl rfl

/-- C10: a detector stays Ready after Init: over every sequence of
Reset and ProcessBlock calls the channel count keeps the same positive
value and the rate and cutoff configuration never changes,
`most_recent_output_` always has one entry per channel, and every
further ProcessBlock call reports success and produces one output row
per channel. -/
theorem claim_C10_ready_forever [Inhabited D]
    (ext : Externals C SC K P S D) (nc : Nat) (sr fc er : ℚ) (coeffs : C)
    (d0 : EnvelopeDetector P S D)
    (hInit : EnvelopeDetector.Init ext nc sr fc er coeffs = some d0)
    (ops : List DetOp) (input output : Block) :
    0 < nc ∧ configOk nc sr fc er (runOps ext d0 ops) ∧
    ((runOps ext d0 ops).ProcessBlock ext input output).1 = true ∧
    (((runOps ext d0 ops).ProcessBlock ext input output).2.2).length = nc := by
  obtain ⟨⟨-, -, -, hnc⟩, rfl⟩ := (init_eq_some_iff ext nc sr fc er coeffs d0).mp hInit
  have h0 : configOk nc sr fc er
      (EnvelopeDetector.initState ext nc sr fc er coeffs) := by
    refine ⟨rfl, rfl, rfl, rfl, ?_⟩
    simp [EnvelopeDetector.initState]
  have hrun := configOk_runOps ext nc sr fc er hnc ops _ h0
  have hne : (runOps ext (EnvelopeDetector.initState ext nc sr fc er coeffs)
      ops).num_channels_ ≠ 0 := by
    rw [hrun.1]
    omega
  refine ⟨hnc, hrun, ?_, ?_⟩
  · rw [processBlock_pos _ _ input output hne]
  · rw [processBlock_pos _ _ input output hne]
    show (outBlock ext _ input).length = nc
    simp [outBlock, hrun.1]

theorem claim_C10_witness :
    0 < 1 ∧ configOk 1 2 (1 / 4) 1
      (runOps idExt d0Ex [DetOp.reset, DetOp.process [[1]] []]) ∧
    ((runOps idExt d0Ex [DetOp.reset, DetOp.process [[1]] []]).ProcessBlock
      idExt [[1]] []).1 = true ∧
    (((runOps idExt d0Ex [DetOp.reset, DetOp.process [[1]] []]).ProcessBlock
      idExt [[1]] []).2.2).length = 1 :=
  claim_C10_ready_forever idExt 1 2 (1 / 4) 1 () d0Ex
    ((init_eq_some_iff idExt 1 2 (1 / 4) 1 () d0Ex).mpr ⟨by norm_num, rfl⟩)
    [DetOp.reset, DetOp.process [[1]] []] [[1]] []

end AudioDsp
